import Mathlib

/-!
Shallow embedding of `drive/missing_files.py`, a one-shot tool that lists
files on HDFS, lists objects on GCS, and reports the HDFS entries that are
missing from GCS or whose sizes differ.

Strings are modelled as `List Char`.  Python runtime failures (raised
exceptions) are modelled with `Except PyError`.  Each definition mirrors one
function, property or code block of the source file; comments cite the
mirrored lines.
-/

set_option linter.unusedVariables false

abbrev Str := List Char

/-- Python exceptions that the script can raise at runtime. -/
inductive PyError where
  | typeError : PyError
  | indexError : PyError
  | nameError : PyError
  | recursionError : PyError
  | exception : Str → PyError
deriving DecidableEq

/-- Mirror of class `FileInfo` (lines 57-63): a path and a declared size,
both plain strings as parsed from the listing output. -/
structure FileInfo where
  path : Str
  size : Str
deriving DecidableEq

/-- Mirror of the raw GCS object record wrapped by class `GCFileInfo`
(lines 66-82): the response item carries a name, a size (a string in the
JSON API), and possibly a signed url field. -/
structure GCItem where
  name : Str
  size : Str
  url : Option Str
deriving DecidableEq

/-- Accumulator-style worker for `pySplit`. -/
def pySplitAux : Str → Str → List Str
  | [], acc => if acc = [] then [] else [acc.reverse]
  | c :: rest, acc =>
    if c.isWhitespace then
      if acc = [] then pySplitAux rest []
      else acc.reverse :: pySplitAux rest []
    else pySplitAux rest (c :: acc)

/-- Python `str.split()` with no argument (line 103 `l.split()`): split on
runs of whitespace, discarding empty fields and edge whitespace. -/
def pySplit (l : Str) : List Str := pySplitAux l []

/-- Mirror of the loop body over listing lines (lines 102-113): a line
yields an entry only when it splits into exactly 8 fields and its last
field is neither `.` nor `..`; path is the last field, size is field 4. -/
def parseLine (l : Str) : Option FileInfo :=
  if (pySplit l).length ≠ 8 then none
  else if (pySplit l).getLastD [] = (".".toList) ∨ (pySplit l).getLastD [] = ("..".toList) then
    none
  else some ⟨(pySplit l).getLastD [], (pySplit l).getD 4 []⟩

/-- One insertion into a Python dict built from a pair list: a later pair
with the same key overwrites the earlier value. -/
def upsert (d : List (Str × α)) (k : Str) (v : α) : List (Str × α) :=
  if d.any (fun p => p.1 = k) then
    d.map (fun p => if p.1 = k then (k, v) else p)
  else d ++ [(k, v)]

/-- Python `dict([(k, v) for ...])` (lines 115 and 146): last pair wins on
duplicate keys. -/
def dictOfPairs (ps : List (Str × α)) : List (Str × α) :=
  ps.foldl (fun d p => upsert d p.1 p.2) []

/-- Python `k in d` membership test on the modelled dict. -/
def dictContains (d : List (Str × α)) (k : Str) : Bool :=
  d.any (fun p => p.1 = k)

/-- Outcome of the external listing subprocess: its exit code and the lines
of its captured standard output. -/
structure SubprocessResult where
  retcode : Int
  stdoutLines : List Str

/-- Mirror of `ListHDFS` (lines 84-116).  On a non-zero exit code the code
executes `raise Exception("Command:%s failed with exit code %d" % " ".join(command), retcode)`:
the format string holds two conversion specifiers but the `%` operator
receives the single joined-command string, so the formatting itself raises
`TypeError: not enough arguments for format string` before any `Exception`
value is constructed.  On success the parsed entries are keyed by path. -/
def listHDFS (proc : SubprocessResult) : Except PyError (List (Str × FileInfo)) :=
  if proc.retcode ≠ 0 then
    Except.error PyError.typeError
  else
    Except.ok (dictOfPairs ((proc.stdoutLines.filterMap parseLine).map (fun f => (f.path, f))))

/-- The destination flag value after `urlparse.urlparse(FLAGS.outputpath)`
(line 130): the raw flag string together with the parsed authority
(`netloc`) and path components. -/
structure OutputPath where
  raw : Str
  netloc : Str
  path : Str

/-- Mirror of the prefix computation of `ListGCS` (lines 133-139):
`prefix = parsed.path[1:]` drops the first character unconditionally;
`prefix[0]` raises IndexError when that result is empty; one further
leading `/` is stripped if present; `prefix[-1]` raises IndexError when
the string is empty at that point; one trailing `/` is stripped if
present. -/
def normalizePfx (path : Str) : Except PyError Str :=
  match path.drop 1 with
  | [] => Except.error PyError.indexError
  | c :: rest =>
    match (if c = '/' then rest else c :: rest) with
    | [] => Except.error PyError.indexError
    | d :: ds =>
      Except.ok (if (d :: ds).getLastD ' ' = '/' then (d :: ds).dropLast else d :: ds)

/-- The bucket and object prefix passed to `objects.list` (line 141). -/
structure GCSRequest where
  bucket : Str
  pfx : Str
deriving DecidableEq

/-- The request issued by `ListGCS`: bucket is `parsed.netloc` (line 131),
prefix is the normalized path. -/
def gcsRequestOf (out : OutputPath) : Except PyError GCSRequest :=
  match normalizePfx out.path with
  | Except.error e => Except.error e
  | Except.ok p => Except.ok ⟨out.netloc, p⟩

/-- The GCS `objects.list` response (line 141): the `items` key is absent
(`none`) when the listing holds no objects. -/
structure GCSResponse where
  items : Option (List GCItem)

/-- Message of the exception raised at line 144:
`'No files found in:' + FLAGS.outputpath`. -/
def noFilesMsg (raw : Str) : Str := ("No files found in:".toList) ++ raw

/-- Mirror of `ListGCS` (lines 119-149): normalize the prefix (which can
raise IndexError), fail when the response has no `items` key, otherwise
build the dict keyed by each item's `name`. -/
def listGCS (out : OutputPath) (resp : GCSResponse) : Except PyError (List (Str × GCItem)) :=
  match gcsRequestOf out with
  | Except.error e => Except.error e
  | Except.ok req =>
    match resp.items with
    | none => Except.error (PyError.exception (noFilesMsg out.raw))
    | some items => Except.ok (dictOfPairs (items.map (fun it => (it.name, it))))

/-- Python recursion limit (`sys.getrecursionlimit()` default). -/
def pyRecursionLimit : Nat := 1000

/-- Stepwise model of the `GCFileInfo.url` property (lines 80-82): its body
is `return self.url["url"]`, which re-enters the very same property, so
each evaluation step performs another property access and no step ever
produces a value; the fuel counts the remaining stack frames. -/
def gcUrlAux : Nat → GCItem → Except PyError Str
  | 0, _ => Except.error PyError.recursionError
  | n + 1, info => gcUrlAux n info

/-- Accessing the `url` property of a `GCFileInfo` wrapper: the
self-referential body recurses until Python's recursion limit is hit. -/
def gcUrl (info : GCItem) : Except PyError Str := gcUrlAux pyRecursionLimit info

/-- Worker for the comparison loop of `main` (lines 173-180), carrying the
`missing_items` and `invalid_size` accumulators.  When `hitem.path` is a
key of the GCS dict the body executes `gitem = gcs_items_items[hitem.path]`
(line 178); `gcs_items_items` is an undefined name, so a NameError is
raised and the statements appending to `invalid_size` are unreachable. -/
def reconcileAux (gcs : List (Str × GCItem)) :
    List FileInfo → List FileInfo → List FileInfo →
    Except PyError (List FileInfo × List FileInfo)
  | [], missing, invalid => Except.ok (missing, invalid)
  | hitem :: rest, missing, invalid =>
    if dictContains gcs hitem.path then
      Except.error PyError.nameError
    else
      reconcileAux gcs rest (missing ++ [hitem]) invalid

/-- The comparison phase of `main` (lines 170-180) over the HDFS dict
values and the GCS dict: returns (missing_items, invalid_size) unless the
loop raises. -/
def reconcile (hdfsVals : List FileInfo) (gcs : List (Str × GCItem)) :
    Except PyError (List FileInfo × List FileInfo) :=
  reconcileAux gcs hdfsVals [] []

/-- The data of the report printed by `main` (lines 166-187). -/
structure MainResult where
  gcsCount : Nat
  hdfsCount : Nat
  invalidSizePaths : List Str
  missingPaths : List Str
deriving DecidableEq

/-- Mirror of `main` after flag parsing (lines 163-187): list HDFS, list
GCS, compare, report.  Any raised exception aborts the run with no
report. -/
def mainRun (proc : SubprocessResult) (out : OutputPath) (resp : GCSResponse) :
    Except PyError MainResult :=
  match listHDFS proc with
  | Except.error e => Except.error e
  | Except.ok hdfs =>
    match listGCS out resp with
    | Except.error e => Except.error e
    | Except.ok gcs =>
      match reconcile (hdfs.map (fun p => p.2)) gcs with
      | Except.error e => Except.error e
      | Except.ok res =>
        Except.ok ⟨gcs.length, hdfs.length,
          res.2.map (fun f => f.path), res.1.map (fun f => f.path)⟩

/-- Modelled from the spec (section 4.2): strip exactly one leading slash
from the URL path, if present. -/
def specStripLead (path : Str) : Str :=
  match path with
  | '/' :: rest => rest
  | _ => path

/-- Modelled from the spec (section 4.2): strip exactly one trailing slash,
if present. -/
def specStripTrail (p : Str) : Str :=
  if p.getLastD ' ' = '/' then p.dropLast else p

/-- Modelled from the spec (section 4.2): the prefix the spec says the
lister derives from the URL path — one leading slash stripped if present,
one trailing slash stripped if present, nothing else removed. -/
def specPfxOfPath (path : Str) : Str := specStripTrail (specStripLead path)

/-- Helper used to state that reconciliation ignores signed URLs: replace
the url field of a record. -/
def setUrl (it : GCItem) (u : Option Str) : GCItem := ⟨it.name, it.size, u⟩

/-- Join listing columns with single spaces, the shape of a well-formed
tabular listing line. -/
def mkLine : List Str → Str
  | [] => []
  | [f] => f
  | f :: g :: rest => f ++ ' ' :: mkLine (g :: rest)

/-! Helper lemmas about the embedded definitions. -/

/-- Every evaluation step of the url property performs another property
access, so no amount of stack ever yields a value. -/
theorem gcUrlAux_never (n : Nat) (info : GCItem) :
    gcUrlAux n info = Except.error PyError.recursionError := by
  induction n with
  | zero => rfl
  | succ k ih => simpa [gcUrlAux] using ih

/-- Tokens produced by the splitter contain no whitespace characters. -/
theorem pySplitAux_no_ws (l : Str) : ∀ (acc : Str), (∀ c ∈ acc, c.isWhitespace = false) →
    ∀ tok ∈ pySplitAux l acc, ∀ c ∈ tok, c.isWhitespace = false := by
  induction l with
  | nil =>
    intro acc hacc tok htok c hc
    by_cases h : acc = []
    · simp [pySplitAux, h] at htok
    · simp [pySplitAux, h] at htok
      subst htok
      exact hacc c (by simpa using hc)
  | cons x xs ih =>
    intro acc hacc tok htok
    cases hxw : x.isWhitespace with
    | true =>
      by_cases h : acc = []
      · simp [pySplitAux, hxw, h] at htok
        exact ih [] (by simp) tok htok
      · simp [pySplitAux, hxw, h] at htok
        rcases htok with h1 | h1
        · subst h1
          intro c hc
          exact hacc c (by simpa using hc)
        · exact ih [] (by simp) tok h1
    | false =>
      simp [pySplitAux, hxw] at htok
      refine ih (x :: acc) ?_ tok htok
      intro c hc
      rcases List.mem_cons.mp hc with h1 | h1
      · subst h1; exact hxw
      · exact hacc c h1

/-- A single space is a hard separator: splitting a line that contains one
splits the two sides independently. -/
theorem pySplitAux_append (ys : Str) : ∀ (xs acc : Str),
    pySplitAux (xs ++ ' ' :: ys) acc = pySplitAux xs acc ++ pySplitAux ys [] := by
  have hsp : (' ').isWhitespace = true := by decide
  intro xs
  induction xs with
  | nil =>
    intro acc
    by_cases h : acc = [] <;> simp [pySplitAux, hsp, h]
  | cons x xs ih =>
    intro acc
    cases hxw : x.isWhitespace with
    | false => simp [pySplitAux, hxw, ih]
    | true =>
      by_cases h : acc = [] <;> simp [pySplitAux, hxw, h, ih]

/-- A nonempty whitespace-free token splits into itself alone. -/
theorem pySplitAux_single : ∀ (l acc : Str), l ≠ [] →
    (∀ c ∈ l, c.isWhitespace = false) → pySplitAux l acc = [acc.reverse ++ l] := by
  intro l
  induction l with
  | nil => intro acc h _; cases h rfl
  | cons x xs ih =>
    intro acc _ hws
    have hx : x.isWhitespace = false := hws x (List.mem_cons_self x xs)
    by_cases hxs : xs = []
    · subst hxs
      simp [pySplitAux, hx]
    · have h2 := ih (x :: acc) hxs (fun c hc => hws c (List.mem_cons_of_mem x hc))
      simp [pySplitAux, hx, h2]

/-- A nonempty whitespace-free token is a one-token line. -/
theorem pySplit_single (t : Str) (h : t ≠ []) (hws : ∀ c ∈ t, c.isWhitespace = false) :
    pySplit t = [t] := by
  simpa [pySplit] using pySplitAux_single t [] h hws

/-- Splitting a space-joined line concatenates the splits of its columns. -/
theorem pySplit_mkLine : ∀ (fs : List Str), pySplit (mkLine fs) = fs.flatMap pySplit := by
  intro fs
  induction fs with
  | nil => rfl
  | cons f rest ih =>
    cases rest with
    | nil => simp [mkLine, pySplit]
    | cons g t =>
      have h1 : pySplit (mkLine (f :: g :: t)) = pySplit f ++ pySplit (mkLine (g :: t)) := by
        simpa [pySplit, mkLine] using pySplitAux_append (mkLine (g :: t)) f []
      simp [h1, ih]

/-- The last element with a default is a member of any nonempty list. -/
theorem getLastD_mem {α : Type} : ∀ (l : List α), l ≠ [] → ∀ (d : α), l.getLastD d ∈ l := by
  intro l
  induction l with
  | nil => intro h; cases h rfl
  | cons x xs ih =>
    intro _ d
    by_cases hxs : xs = []
    · subst hxs
      simp
    · have h2 := ih hxs x
      simp only [List.getLastD_cons]
      exact List.mem_cons_of_mem _ h2

/-- A parsed entry's path is one of the whitespace-split fields of the
line, hence contains no whitespace character. -/
theorem parseLine_path_no_ws (l : Str) (fi : FileInfo) (h : parseLine l = some fi) :
    ∀ c ∈ fi.path, c.isWhitespace = false := by
  unfold parseLine at h
  split at h
  · exact absurd h (by simp)
  · split at h
    · exact absurd h (by simp)
    · rename_i h8 hdot
      have hfi : fi = ⟨(pySplit l).getLastD [], (pySplit l).getD 4 []⟩ :=
        (Option.some.injEq _ _ ▸ h).symm
      have hne : pySplit l ≠ [] := by
        intro hnil
        rw [hnil] at h8
        simp at h8
      have hmem : (pySplit l).getLastD [] ∈ pySplit l := getLastD_mem (pySplit l) hne []
      have := pySplitAux_no_ws l [] (by simp) ((pySplit l).getLastD []) hmem
      rw [hfi]
      exact this

/-- A line whose field count is not 8 yields no entry. -/
theorem parseLine_none_of_len (l : Str) (h : (pySplit l).length ≠ 8) :
    parseLine l = none := by
  simp [parseLine, h]

/-- Membership in an upserted dict comes from the dict or from the new
pair. -/
theorem mem_upsert {α : Type} (d : List (Str × α)) (k : Str) (v : α) (q : Str × α)
    (h : q ∈ upsert d k v) : q ∈ d ∨ q = (k, v) := by
  unfold upsert at h
  split at h
  · rcases List.mem_map.mp h with ⟨p, hp, hq⟩
    by_cases hpk : p.1 = k
    · simp [hpk] at hq
      right
      exact hq.symm
    · simp [hpk] at hq
      left
      exact hq ▸ hp
  · rcases List.mem_append.mp h with h1 | h1
    · left; exact h1
    · right; simpa using h1

/-- Auxiliary form of `mem_dict` over the folding accumulator. -/
theorem mem_dictFold {α : Type} : ∀ (ps acc : List (Str × α)) (q : Str × α),
    q ∈ ps.foldl (fun d p => upsert d p.1 p.2) acc → q ∈ acc ∨ q ∈ ps := by
  intro ps
  induction ps with
  | nil => intro acc q h; left; simpa using h
  | cons p rest ih =>
    intro acc q h
    simp only [List.foldl_cons] at h
    rcases ih (upsert acc p.1 p.2) q h with h1 | h1
    · rcases mem_upsert acc p.1 p.2 q h1 with h2 | h2
      · left; exact h2
      · right
        rw [h2]
        exact List.mem_cons_self _ _
    · right; exact List.mem_cons_of_mem _ h1

/-- Every pair stored in a modelled dict is one of the input pairs. -/
theorem mem_dict {α : Type} (ps : List (Str × α)) (q : Str × α)
    (h : q ∈ dictOfPairs ps) : q ∈ ps := by
  rcases mem_dictFold ps [] q h with h1 | h1
  · simp at h1
  · exact h1

/-- A key-preserving rewrite of the stored values does not change dict
membership tests. -/
theorem dictContains_map {α β : Type} (gcs : List (Str × α)) (g : Str × α → β) (k : Str) :
    dictContains (gcs.map (fun p => (p.1, g p))) k = dictContains gcs k := by
  induction gcs with
  | nil => rfl
  | cons p rest ih =>
    simp only [dictContains, List.map_cons, List.any_cons] at ih ⊢
    rw [ih]

/-- The comparison loop raises NameError as soon as any source path is
found among the destination keys. -/
theorem reconcileAux_err (gcs : List (Str × GCItem)) :
    ∀ (src missing invalid : List FileInfo),
      (∃ f ∈ src, dictContains gcs f.path = true) →
      reconcileAux gcs src missing invalid = Except.error PyError.nameError := by
  intro src
  induction src with
  | nil =>
    intro missing invalid h
    rcases h with ⟨f, hf, _⟩
    simp at hf
  | cons x xs ih =>
    intro missing invalid h
    by_cases hx : dictContains gcs x.path = true
    · simp [reconcileAux, hx]
    · have hx2 : dictContains gcs x.path = false := by
        cases hb : dictContains gcs x.path
        · rfl
        · exact absurd hb hx
      rcases h with ⟨f, hf, hfc⟩
      rcases List.mem_cons.mp hf with h1 | h1
      · subst h1; exact absurd hfc hx
      · simp only [reconcileAux, hx2, Bool.false_eq_true, if_false]
        exact ih _ _ ⟨f, h1, hfc⟩

/-- When the comparison loop completes, the invalid-size list is exactly
the accumulator it started from (the appending statement is unreachable)
and every reported missing entry is an accumulator entry or a source
entry. -/
theorem reconcileAux_ok (gcs : List (Str × GCItem)) :
    ∀ (src missing invalid m i : List FileInfo),
      reconcileAux gcs src missing invalid = Except.ok (m, i) →
      i = invalid ∧ ∀ f ∈ m, f ∈ missing ∨ f ∈ src := by
  intro src
  induction src with
  | nil =>
    intro missing invalid m i h
    simp [reconcileAux] at h
    obtain ⟨hm, hi⟩ := h
    refine ⟨hi.symm, ?_⟩
    intro f hf
    left
    rw [hm]
    exact hf
  | cons x xs ih =>
    intro missing invalid m i h
    by_cases hx : dictContains gcs x.path = true
    · simp [reconcileAux, hx] at h
    · have hx2 : dictContains gcs x.path = false := by
        cases hb : dictContains gcs x.path
        · rfl
        · exact absurd hb hx
      simp only [reconcileAux, hx2, Bool.false_eq_true, if_false] at h
      obtain ⟨hi, hm⟩ := ih _ _ _ _ h
      refine ⟨hi, ?_⟩
      intro f hf
      rcases hm f hf with h1 | h1
      · rcases List.mem_append.mp h1 with h2 | h2
        · left; exact h2
        · right
          simp at h2
          rw [h2]
          exact List.mem_cons_self _ _
      · right; exact List.mem_cons_of_mem _ h1

/-- The comparison loop reads only the keys and declared sizes of the
destination dict, never the signed urls. -/
theorem reconcileAux_setUrl (gcs : List (Str × GCItem)) (u : GCItem → Option Str) :
    ∀ (src missing invalid : List FileInfo),
      reconcileAux (gcs.map (fun p => (p.1, setUrl p.2 (u p.2)))) src missing invalid =
        reconcileAux gcs src missing invalid := by
  intro src
  induction src with
  | nil => intro missing invalid; rfl
  | cons x xs ih =>
    intro missing invalid
    simp only [reconcileAux, dictContains_map]
    by_cases hx : dictContains gcs x.path = true <;> simp [hx, ih]

/-! Claim theorems. -/

/-- C1: the spec states that a source entry whose path is present in the
destination with equal size is placed in neither output list.  The code
instead evaluates `gcs_items_items[hitem.path]` (line 178), an undefined
name, so the comparison loop raises NameError on the very input the claim
is about: source inventory with entry path `a` size `10` and destination
inventory holding path `a` with the same size `10`. -/
theorem c1_sharedPathEqualSizesCrash :
    reconcile [⟨"a".toList, "10".toList⟩]
      [(("a".toList), ⟨"a".toList, "10".toList, none⟩)] =
      Except.error PyError.nameError := rfl

/-- C2 counterexample: source entry path `a` size `10`, destination entry
path `a` size `20`.  The sizes differ as numbers, so the claim requires the
source entry to be appended to sizeMismatched; instead the loop raises
NameError at the undefined name `gcs_items_items` and no entry is ever
appended. -/
theorem c2_numericCompareCounterexample :
    reconcile [⟨"a".toList, "10".toList⟩]
      [(("a".toList), ⟨"a".toList, "20".toList, none⟩)] =
      Except.error PyError.nameError := rfl

/-- C2 amended: whenever any source path is present among the destination
keys, the comparison statement is never reached — the loop body reads the
undefined name `gcs_items_items` and raises NameError, so reconciliation
aborts and no entry is ever appended to sizeMismatched. -/
theorem c2_sharedPathAlwaysNameError (src : List FileInfo) (gcs : List (Str × GCItem))
    (h : ∃ f ∈ src, dictContains gcs f.path = true) :
    reconcile src gcs = Except.error PyError.nameError :=
  reconcileAux_err gcs src [] [] h

/-- C2 witness: the amended theorem applied at a concrete shared path. -/
theorem c2_sharedPathAlwaysNameError_witness :
    reconcile [⟨"b".toList, "7".toList⟩]
      [(("b".toList), ⟨"b".toList, "8".toList, none⟩)] =
      Except.error PyError.nameError :=
  c2_sharedPathAlwaysNameError _ _ ⟨⟨"b".toList, "7".toList⟩, by decide, by decide⟩

/-- C3: the spec requires an InvalidPathError, raised explicitly before any
indexed access, for a destination URL with an empty path.  The code instead
evaluates `prefix[0]` on the empty string (line 135) and raises IndexError:
for the flag value `gs://bucket`, whose parsed path component is empty, the
lister fails with the out-of-bounds IndexError the spec forbids. -/
theorem c3_emptyPathIndexError :
    gcsRequestOf ⟨"gs://bucket".toList, "bucket".toList, []⟩ =
      Except.error PyError.indexError := rfl

/-- C4 counterexample: a destination record that lacks a signed URL field.
The property body is `return self.url["url"]` (line 82), which re-enters
the property itself, so the access never returns and Python aborts it at
the recursion limit — it does crash, contradicting the claim. -/
theorem c4_urlAccessCrashes :
    gcUrl ⟨"obj".toList, "10".toList, none⟩ = Except.error PyError.recursionError :=
  gcUrlAux_never pyRecursionLimit ⟨"obj".toList, "10".toList, none⟩

/-- C4 amended: accessing the url property always crashes — its body reads
`self.url`, re-entering itself until the recursion limit, whether or not
the record has a signed URL — while the url field is indeed never queried
during reconciliation: rewriting every stored url leaves the comparison
loop's outcome unchanged. -/
theorem c4_urlCrashesButUnusedByReconcile :
    (∀ info : GCItem, gcUrl info = Except.error PyError.recursionError) ∧
    (∀ (src : List FileInfo) (gcs : List (Str × GCItem)) (u : GCItem → Option Str),
      reconcile src (gcs.map (fun p => (p.1, setUrl p.2 (u p.2)))) = reconcile src gcs) :=
  ⟨fun info => gcUrlAux_never pyRecursionLimit info,
   fun src gcs u => reconcileAux_setUrl gcs u src [] []⟩

/-- C5: the spec states that a non-zero subprocess exit raises a
CommandExecutionError carrying the command and the exit code.  The code
executes `raise Exception("Command:%s failed with exit code %d" % " ".join(command), retcode)`
(lines 94-95): the two-specifier format string is applied to the single
joined-command argument, so the `%` operator raises
`TypeError: not enough arguments for format string` first, and the raised
error carries neither the command nor the exit code.  Evaluated here at
exit code 1: the lister fails with the bare TypeError (and returns no
inventory). -/
theorem c5_nonzeroExitRaisesBareTypeError :
    listHDFS ⟨1, [("-rw-r--r-- 3 user group 5 d t /f".toList)]⟩ =
      Except.error PyError.typeError := rfl

/-- C6: when the subprocess listing succeeded and the destination URL has a
normalizable path, a response with no items makes the GCS lister raise the
empty-result exception `'No files found in:' + outputpath`, and the whole
run aborts with that error — the comparison loop is never reached and no
report value is produced. -/
theorem c6_emptyItemsFailBeforeReconcile (proc : SubprocessResult) (out : OutputPath)
    (resp : GCSResponse) (p : Str) (h0 : proc.retcode = 0)
    (hp : normalizePfx out.path = Except.ok p) (hi : resp.items = none) :
    mainRun proc out resp = Except.error (PyError.exception (noFilesMsg out.raw)) := by
  have hH : listHDFS proc = Except.ok
      (dictOfPairs ((proc.stdoutLines.filterMap parseLine).map (fun f => (f.path, f)))) := by
    simp [listHDFS, h0]
  have hG : listGCS out resp = Except.error (PyError.exception (noFilesMsg out.raw)) := by
    simp [listGCS, gcsRequestOf, hp, hi]
  simp [mainRun, hH, hG]

/-- C6 witness: the theorem applied to a successful empty listing and an
itemless response. -/
theorem c6_emptyItemsFailBeforeReconcile_witness :
    mainRun ⟨0, []⟩ ⟨"gs://b/data".toList, "b".toList, "/data".toList⟩ ⟨none⟩ =
      Except.error (PyError.exception (noFilesMsg ("gs://b/data".toList))) :=
  c6_emptyItemsFailBeforeReconcile ⟨0, []⟩ ⟨"gs://b/data".toList, "b".toList, "/data".toList⟩
    ⟨none⟩ ("data".toList) rfl rfl rfl

/-- C7 counterexample: destination URL `gs://bucket//data`, whose parsed
path component is `//data`.  The claim says the prefix is that path with
exactly one leading slash stripped, i.e. `/data`; the code unconditionally
drops the first character and then strips one more leading slash, yielding
`data`. -/
theorem c7_doubleSlashCounterexample :
    gcsRequestOf ⟨"gs://bucket//data".toList, "bucket".toList, "//data".toList⟩ =
        Except.ok ⟨"bucket".toList, "data".toList⟩ ∧
      specPfxOfPath ("//data".toList) = ("/data".toList) ∧
      ("data".toList) ≠ ("/data".toList) :=
  ⟨rfl, rfl, by decide⟩

/-- C7 amended: for every destination URL whose path component begins with
exactly one slash followed by at least one character, the computed request
carries the URL authority as bucket and a prefix equal to the path with
the single leading slash stripped and one trailing slash stripped if
present — the behaviour the claim describes; for other path shapes the
code drops the path's first character unconditionally before the
conditional stripping. -/
theorem c7_singleSlashPathMatchesSpec (out : OutputPath) (c : Char) (rest : Str)
    (hpath : out.path = '/' :: c :: rest) (hc : c ≠ '/') :
    gcsRequestOf out = Except.ok ⟨out.netloc, specPfxOfPath out.path⟩ := by
  have hn : normalizePfx out.path = Except.ok (specPfxOfPath out.path) := by
    rw [hpath]
    simp [normalizePfx, specPfxOfPath, specStripLead, specStripTrail, hc]
  simp [gcsRequestOf, hn]

/-- C7 witness: the amended theorem applied to the URL `gs://b/x/`. -/
theorem c7_singleSlashPathMatchesSpec_witness :
    gcsRequestOf ⟨"gs://b/x/".toList, "b".toList, "/x/".toList⟩ =
      Except.ok ⟨"b".toList, specPfxOfPath ("/x/".toList)⟩ :=
  c7_singleSlashPathMatchesSpec ⟨"gs://b/x/".toList, "b".toList, "/x/".toList⟩
    'x' ("/".toList) rfl (by decide)

/-- C8: a listing line that splits into exactly 8 whitespace-separated
fields whose last field is neither `.` nor `..` yields exactly one entry,
with path the last field and size the field at index 4; a line with any
other field count yields no entry (and the parse is a total function, so
no crash). -/
theorem c8_parseLineContract (l : Str) :
    ((pySplit l).length = 8 → (pySplit l).getLastD [] ≠ (".".toList) →
      (pySplit l).getLastD [] ≠ ("..".toList) →
      parseLine l = some ⟨(pySplit l).getLastD [], (pySplit l).getD 4 []⟩) ∧
    ((pySplit l).length ≠ 8 → parseLine l = none) := by
  constructor
  · intro h8 hd hdd
    unfold parseLine
    rw [if_neg (not_not_intro h8), if_neg (not_or.mpr ⟨hd, hdd⟩)]
  · intro h
    unfold parseLine
    rw [if_pos h]

/-- C8 witness: the contract applied to a well-formed 8-field line and to a
3-field header line. -/
theorem c8_parseLineContract_witness :
    parseLine ("-rw-r--r-- 3 user group 1234 2014-01-01 12:00 /data/file".toList) =
        some ⟨"/data/file".toList, "1234".toList⟩ ∧
      parseLine ("Found 2 items".toList) = none := by
  constructor
  · have h :=
      (c8_parseLineContract
        ("-rw-r--r-- 3 user group 1234 2014-01-01 12:00 /data/file".toList)).1
        (by decide) (by decide) (by decide)
    exact h.trans (by decide)
  · exact (c8_parseLineContract ("Found 2 items".toList)).2 (by decide)

/-- C9: when the comparison loop completes, every reported entry originates
from the source inventory, so a path present only in the destination
appears in neither the missing list nor the size-mismatched list. -/
theorem c9_destOnlyNeverReported (src : List FileInfo) (gcs : List (Str × GCItem))
    (m i : List FileInfo) (p : Str)
    (hok : reconcile src gcs = Except.ok (m, i))
    (hdst : dictContains gcs p = true)
    (hsrc : ∀ f ∈ src, f.path ≠ p) :
    (∀ f ∈ m, f.path ≠ p) ∧ (∀ f ∈ i, f.path ≠ p) := by
  obtain ⟨hi, hm⟩ := reconcileAux_ok gcs src [] [] m i hok
  constructor
  · intro f hf
    rcases hm f hf with h1 | h1
    · simp at h1
    · exact hsrc f h1
  · intro f hf
    rw [hi] at hf
    simp at hf

/-- C9 witness: source holds only path `a`, destination holds only path
`b`; the reconciliation result is (missing = [a], sizeMismatched = []) and
`b` appears in neither list. -/
theorem c9_destOnlyNeverReported_witness :
    (∀ f ∈ [(⟨"a".toList, "1".toList⟩ : FileInfo)], f.path ≠ ("b".toList)) ∧
    (∀ f ∈ ([] : List FileInfo), f.path ≠ ("b".toList)) :=
  c9_destOnlyNeverReported [⟨"a".toList, "1".toList⟩]
    [(("b".toList), ⟨"b".toList, "9".toList, none⟩)]
    [⟨"a".toList, "1".toList⟩] [] ("b".toList) rfl rfl (by decide)

/-- Columns that are nonempty and whitespace-free split into themselves. -/
theorem flatMap_pySplit_self : ∀ (cols : List Str),
    (∀ t ∈ cols, t ≠ [] ∧ ∀ c ∈ t, c.isWhitespace = false) →
    cols.flatMap pySplit = cols := by
  intro cols
  induction cols with
  | nil => intro _; rfl
  | cons t ts ih =>
    intro h
    have ht := h t (List.mem_cons_self t ts)
    have hts := fun x hx => h x (List.mem_cons_of_mem t hx)
    simp [List.flatMap_cons, pySplit_single t ht.1 ht.2, ih hts]

/-- C10: a well-formed listing line — seven whitespace-free columns
followed by a path field — whose path contains internal whitespace splits
into more than 8 fields and is silently dropped; and every entry that ever
reaches the missing or size-mismatched list of a completed run has a
whitespace-free path, because inventory paths are single split tokens. -/
theorem c10_wsPathsNeverInInventory :
    (∀ (cols : List Str) (path : Str), cols.length = 7 →
      (∀ t ∈ cols, t ≠ [] ∧ ∀ c ∈ t, c.isWhitespace = false) →
      2 ≤ (pySplit path).length →
      parseLine (mkLine (cols ++ [path])) = none) ∧
    (∀ (proc : SubprocessResult) (d : List (Str × FileInfo)),
      listHDFS proc = Except.ok d →
      ∀ (gcs : List (Str × GCItem)) (m i : List FileInfo),
        reconcile (d.map (fun q => q.2)) gcs = Except.ok (m, i) →
        ∀ f ∈ m ++ i, ∀ c ∈ f.path, c.isWhitespace = false) := by
  constructor
  · intro cols path h7 hcols hws
    have hsplit : pySplit (mkLine (cols ++ [path])) = cols ++ pySplit path := by
      rw [pySplit_mkLine, List.flatMap_append, flatMap_pySplit_self cols hcols]
      simp
    apply parseLine_none_of_len
    rw [hsplit, List.length_append, h7]
    omega
  · intro proc d hd gcs m i hok f hf c hc
    have h0 : ¬ proc.retcode ≠ 0 := by
      intro h
      simp [listHDFS, h] at hd
    have hdval : dictOfPairs ((proc.stdoutLines.filterMap parseLine).map
        (fun g => (g.path, g))) = d := by
      simpa [listHDFS, h0] using hd
    have hok2 : reconcileAux gcs (d.map (fun q => q.2)) [] [] = Except.ok (m, i) := hok
    obtain ⟨hi, hm⟩ := reconcileAux_ok gcs (d.map (fun q => q.2)) [] [] m i hok2
    rcases List.mem_append.mp hf with hfm | hfi
    · rcases hm f hfm with h1 | h1
      · simp at h1
      · rcases List.mem_map.mp h1 with ⟨q, hq, hqf⟩
        rw [← hdval] at hq
        have hq2 := mem_dict _ _ hq
        rcases List.mem_map.mp hq2 with ⟨g, hg, hgq⟩
        rcases List.mem_filterMap.mp hg with ⟨l, hl, hlg⟩
        have hclean := parseLine_path_no_ws l g hlg
        have hfg : f = g := by rw [← hqf, ← hgq]
        rw [hfg] at hc
        exact hclean c hc
    · rw [hi] at hfi
      simp at hfi

/-- C10 witness: the path `my file` splits in two, so the full 8-column
line splits into 9 fields and parses to nothing; and a completed run over
the line for `/data/file` reports only that whitespace-free path. -/
theorem c10_wsPathsNeverInInventory_witness :
    parseLine (mkLine (["-rw-r--r--".toList, "3".toList, "user".toList, "group".toList,
      "1234".toList, "2014-01-01".toList, "12:00".toList] ++ [("my file".toList)])) = none ∧
    (∀ c ∈ ("/data/file".toList), c.isWhitespace = false) := by
  constructor
  · exact c10_wsPathsNeverInInventory.1
      ["-rw-r--r--".toList, "3".toList, "user".toList, "group".toList,
       "1234".toList, "2014-01-01".toList, "12:00".toList]
      ("my file".toList) (by decide) (by decide) (by decide)
  · exact c10_wsPathsNeverInInventory.2
      ⟨0, [("-rw-r--r-- 3 user group 1234 2014-01-01 12:00 /data/file".toList)]⟩
      [(("/data/file".toList), ⟨"/data/file".toList, "1234".toList⟩)] rfl
      [] [⟨"/data/file".toList, "1234".toList⟩] [] rfl
      ⟨"/data/file".toList, "1234".toList⟩ (by simp)
